import Mathlib

/-
Verification of the helper utilities in `utils.py` of
mtiezzi/foveated_neural_computation: activation-function lookup, device
selection, gzip-wrapped numpy array persistence, the `Accuracy` metric
accumulator, and markdown table formatting.

Modelling conventions:
* torch tensors are modelled as lists (`List Int` for flat value tensors,
  `List (List Int)` for two-dimensional ones); the claims under study do not
  depend on the element value type, only on elementwise comparisons.
* A Python function that can raise is modelled as returning `Option`:
  `none` is a propagated exception.
* Python float division in `Accuracy.compute` is modelled as exact division
  in `ℚ` (the numerator and denominator are the two integer counters).
-/

/-- The four activation functions that `get_act_function` /
`get_act_function_module` in `utils.py` can return (`F.relu` / `nn.ReLU()`,
etc.).  A functional and a module returning the same activation are
identified by this tag. -/
inductive ActFn
  | relu
  | sigm
  | tanh
  | leaky
  deriving DecidableEq

/-- `get_act_function(descr)` from `utils.py`: dispatch on the string key,
`raise NotImplementedError` (here `none`) on any other string. -/
def get_act_function (descr : String) : Option ActFn :=
  if descr = "relu" then some ActFn.relu
  else if descr = "sigm" then some ActFn.sigm
  else if descr = "tanh" then some ActFn.tanh
  else if descr = "leaky" then some ActFn.leaky
  else none

/-- `get_act_function_module(descr)` from `utils.py`: same dispatch, returning
module instances (`nn.ReLU()` etc., identified with their `ActFn` tag). -/
def get_act_function_module (descr : String) : Option ActFn :=
  if descr = "relu" then some ActFn.relu
  else if descr = "sigm" then some ActFn.sigm
  else if descr = "tanh" then some ActFn.tanh
  else if descr = "leaky" then some ActFn.leaky
  else none

/-- The fixed filename suffix appended by both `save_to_npy_gz` and
`load_to_npy_gz` in `utils.py`. -/
def npyGzSuffix : String := ".npy.gz"

/-- `save_to_npy_gz(array, filename)` from `utils.py`.  The filesystem is
modelled as a map from path to stored array; `np.save` under a
`gzip.GzipFile` opened at `filename + ".npy.gz"` is modelled as storing the
array value at exactly that path, leaving every other path untouched. -/
def save_to_npy_gz (fs : String → Option (List Int)) (array : List Int)
    (filename : String) : String → Option (List Int) :=
  fun path => if path = filename ++ npyGzSuffix then some array else fs path

/-- `load_to_npy_gz(filename)` from `utils.py`: `np.load` from a
`gzip.GzipFile` opened at `filename + ".npy.gz"`, i.e. a read of exactly
that path of the modelled filesystem. -/
def load_to_npy_gz (fs : String → Option (List Int)) (filename : String) :
    Option (List Int) :=
  fs (filename ++ npyGzSuffix)

/-- The first two `if` statements of `prepare_device(n_gpu_use, gpu_id)` in
`utils.py`, with `n_gpu = torch.cuda.device_count()` passed explicitly:
`if n_gpu_use > 0 and n_gpu == 0: n_gpu_use = 0` then
`if n_gpu_use > n_gpu: n_gpu_use = n_gpu`. -/
def clampGpuCount (n_gpu_use : Int) (n_gpu : Nat) : Int :=
  let n1 : Int := if 0 < n_gpu_use ∧ n_gpu = 0 then 0 else n_gpu_use
  if (n_gpu : Int) < n1 then (n_gpu : Int) else n1

/-- Python's string formatting of the `gpu_id` argument (default `None`):
`str(None)` is `"None"`, `str(i)` is the decimal rendering of `i`. -/
def formatGpuId : Option Int → String
  | some i => toString i
  | none => "None"

/-- `prepare_device(n_gpu_use, gpu_id)` from `utils.py`, with the ambient
`torch.cuda.device_count()` passed as the explicit argument `n_gpu`; the
returned `torch.device` is modelled by the device string passed to it. -/
def prepare_device (n_gpu_use : Int) (gpu_id : Option Int) (n_gpu : Nat) :
    String :=
  let n2 := clampGpuCount n_gpu_use n_gpu
  if 0 < n2 then "cuda:" ++ formatGpuId gpu_id else "cpu"

/-- State of the `Accuracy` metric of `utils.py` (class `Accuracy(Metric)`),
after `__init__`/`reset` have run: the configuration fields set by
`__init__` and the two counters zeroed by `reset`.  Field names drop the
leading underscore of the Python attributes. -/
structure Accuracy where
  is_multilabel : Bool
  type : Option String
  num_correct : Nat
  num_examples : Nat
  best_accuracy : ℚ
  external_best_acc : ℚ
  deriving DecidableEq

/-- `Accuracy.__init__(is_multilabel, type)`: stores the configuration,
sets `best_accuracy = -1` and `external_best_acc = -1`, then
`Metric.__init__` calls `reset()`, which zeroes the two counters. -/
def Accuracy.init (is_multilabel : Bool) (type : Option String) : Accuracy :=
  { is_multilabel := is_multilabel
    type := type
    num_correct := 0
    num_examples := 0
    best_accuracy := -1
    external_best_acc := -1 }

/-- `Accuracy.reset()`: zeroes the two counters, touching nothing else. -/
def Accuracy.reset (a : Accuracy) : Accuracy :=
  { a with num_correct := 0, num_examples := 0 }

/-- `Accuracy.get_best()`: returns `self.best_accuracy`. -/
def Accuracy.get_best (a : Accuracy) : ℚ :=
  a.best_accuracy

/-- One `(output, target, idx)` argument triple of `Accuracy.update` (the
modelled default `batch_compute=False` path).  `output` and `target` are
two-dimensional tensors; `idx` is the index tensor used only by the
`"semisupervised"` branch. -/
structure BatchIn where
  y_pred : List (List Int)
  target : List (List Int)
  idx : List Nat
  deriving DecidableEq

/-- Index of the first maximal element of a list, as `argmax(dim=1)` of
torch computes it per row (`0` on an empty row, which torch rejects and no
claim exercises): the running best index/value is kept, a strictly larger
value replaces it. -/
def argmaxGo (best : Nat) (bestVal : Int) (i : Nat) : List Int → Nat
  | [] => best
  | v :: vs =>
      if bestVal < v then argmaxGo i v (i + 1) vs
      else argmaxGo best bestVal (i + 1) vs

/-- `row.argmax()` for one row. -/
def argmaxIdx : List Int → Nat
  | [] => 0
  | v :: vs => argmaxGo 0 v 1 vs

/-- The `"binary"` branch of `Accuracy.update`:
`torch.eq(y_pred.view(-1).to(target), target.view(-1))` — elementwise
equality of the two flattened tensors. -/
def binaryCorrect (y_pred target : List (List Int)) : List Bool :=
  List.zipWith (fun a b => a == b) y_pred.flatten target.flatten

/-- The `"multiclass"` branch of `Accuracy.update`:
`pred = y_pred.argmax(dim=1, keepdim=True)`, then
`pred.eq(target.view_as(pred))` — the per-row argmax index compared with the
flattened target. -/
def multiclassCorrect (y_pred target : List (List Int)) : List Bool :=
  List.zipWith (fun row t => ((argmaxIdx row : Int) == t)) y_pred target.flatten

/-- The `"multilabel"` branch of `Accuracy.update` for the two-dimensional
case `(N, C)` (where the `transpose(1, last_dim - 1)` and
`reshape(-1, num_classes)` of the source are the identity):
`torch.all(target == y_pred.type_as(target), dim=-1)` — per-row equality of
all class entries. -/
def multilabelCorrect (y_pred target : List (List Int)) : List Bool :=
  List.zipWith (fun t p => t == p) target y_pred

/-- The `"semisupervised"` branch of `Accuracy.update`:
`target = target[idx]; y_pred = y_pred[idx]` (row selection; an
out-of-range index, a torch error, is outside the modelled domain and is
dropped) followed by the multiclass argmax comparison. -/
def semisupCorrect (y_pred target : List (List Int)) (idx : List Nat) :
    List Bool :=
  multiclassCorrect (idx.filterMap fun i => y_pred.get? i)
    (idx.filterMap fun i => target.get? i)

/-- The `correct` tensor assigned by the two `if`/`elif` chains of
`Accuracy.update`, dispatching on `self._type`.  `none` means no branch
assigned `correct`, so line `self._num_correct += torch.sum(correct).item()`
raises `UnboundLocalError`.  The second chain is evaluated after the first,
exactly as in the source (the string keys being mutually exclusive, at most
one branch fires). -/
def correctVec (ty : Option String) (b : BatchIn) : Option (List Bool) :=
  let c1 : Option (List Bool) :=
    if ty = some "binary" then some (binaryCorrect b.y_pred b.target)
    else if ty = some "multiclass" then some (multiclassCorrect b.y_pred b.target)
    else none
  if ty = some "multilabel" then some (multilabelCorrect b.y_pred b.target)
  else if ty = some "semisupervised" then
    some (semisupCorrect b.y_pred b.target b.idx)
  else c1

/-- `Accuracy.update(output, target)` (default `batch_compute=False`):
computes the `correct` tensor for the configured type, then
`self._num_correct += torch.sum(correct).item()` and
`self._num_examples += correct.shape[0]`; raises (`none`) when no branch
assigned `correct`. -/
def Accuracy.update (a : Accuracy) (b : BatchIn) : Option Accuracy :=
  match correctVec a.type b with
  | none => none
  | some correct =>
      some { a with
              num_correct := a.num_correct + correct.count true
              num_examples := a.num_examples + correct.length }

/-- `Accuracy.compute()`: raises (`none`) when `self._num_examples == 0`;
otherwise computes `acc = self._num_correct / self._num_examples`, updates
`best_accuracy` when `acc > self.best_accuracy`, and returns
`self._num_correct / self._num_examples` together with the updated state. -/
def Accuracy.compute (a : Accuracy) : Option (ℚ × Accuracy) :=
  if a.num_examples = 0 then none
  else
    let acc : ℚ := (a.num_correct : ℚ) / (a.num_examples : ℚ)
    let a2 := if a.best_accuracy < acc then { a with best_accuracy := acc } else a
    some ((a.num_correct : ℚ) / (a.num_examples : ℚ), a2)

/-- A call in the metric lifecycle: `reset()` or `update(batch)`. -/
inductive MetricOp
  | resetOp : MetricOp
  | updateOp : BatchIn → MetricOp

/-- Run a sequence of `reset()`/`update()` calls; `none` as soon as an
`update` raises. -/
def runOps (a : Accuracy) : List MetricOp → Option Accuracy
  | [] => some a
  | MetricOp.resetOp :: ops => runOps a.reset ops
  | MetricOp.updateOp b :: ops =>
      match a.update b with
      | none => none
      | some a2 => runOps a2 ops

/-- Run a sequence of `update()` calls; `none` as soon as one raises. -/
def applyUpdates (a : Accuracy) : List BatchIn → Option Accuracy
  | [] => some a
  | b :: bs =>
      match a.update b with
      | none => none
      | some a2 => applyUpdates a2 bs

/-- The per-batch `(correct, total)` contribution of one `update` call. -/
def batchCounts (ty : Option String) (b : BatchIn) : Option (Nat × Nat) :=
  (correctVec ty b).map fun c => (c.count true, c.length)

/-- The accumulated `(correct, total)` contribution of a sequence of
`update` calls; `none` when any of them raises. -/
def totalCounts (ty : Option String) : List BatchIn → Option (Nat × Nat)
  | [] => some (0, 0)
  | b :: bs =>
      match batchCounts ty b, totalCounts ty bs with
      | some (c, n), some (tc, tn) => some (c + tc, n + tn)
      | _, _ => none

/-- `get_markdown_description(description_json, exp_id)` from `utils.py`:
a heading followed by the description with newlines, spaces and brackets
replaced by their markdown-safe forms. -/
def get_markdown_description (description_json : String) (exp_id : String) :
    String :=
  let md := "# Experiment " ++ exp_id ++ "\n\n"
  let d1 := (description_json.replace "\n" "<br>").replace " " "&nbsp;"
  let d2 := (d1.replace "[" "\\[").replace "]" "\\]"
  md ++ d2

/-- The inner generator `get_chunk(input, size)` of `dict_to_md` in
`utils.py`: `for i in range(0, len(input), size)` — one iteration per range
step, i.e. `⌈len/size⌉` of them — each yielding the next `size` consecutive
entries of the dict via `islice` (the dict is modelled as its ordered entry
list, keys and values already rendered by `str`; the entries consumed by
the iterator before step `i` are the first `size * i`).  The source only
invokes it with `size = 10`; `size = 0`, a `ValueError` in Python's
`range`, is outside the modelled domain. -/
def get_chunk (input : List (String × String)) (size : Nat) :
    List (List (String × String)) :=
  (List.range ((input.length + size - 1) / size)).map
    fun i => (input.drop (size * i)).take size

/-- The `markdownheader` line of `dict_to_md`:
`'| ' + ' | '.join(map(str, item.keys())) + ' |'`. -/
def mdHeader (item : List (String × String)) : String :=
  "| " ++ String.intercalate " | " (item.map Prod.fst) ++ " |"

/-- The `markdownheaderseparator` line of `dict_to_md`:
`'|-----' * len(item.keys()) + '|'`. -/
def mdSep (item : List (String × String)) : String :=
  String.join (item.map fun _ => "|-----") ++ "|"

/-- The single value row of `dict_to_md`: for each entry
`markdownrow += '| ' + str(col) + ' '`, then a closing `'|'`. -/
def mdRow (item : List (String × String)) : String :=
  String.join (item.map fun kv => "| " ++ kv.2 ++ " ") ++ "|"

/-- One markdown table appended per chunk by `dict_to_md`: header line,
separator line and value row, each followed by a newline. -/
def mdTable (item : List (String × String)) : String :=
  mdHeader item ++ "\n" ++ mdSep item ++ "\n" ++ mdRow item ++ "\n"

/-- `dict_to_md(dict_input, vis_size=10)` from `utils.py`: one markdown
table per chunk of `get_chunk(dict_input, 10)`.  The `vis_size` parameter
is accepted and never read (the chunk size is the literal `10`). -/
def dict_to_md (dict_input : List (String × String)) (vis_size : Nat) :
    List String :=
  (get_chunk dict_input 10).map mdTable

/-- Unfolding lemma for `Accuracy.update`: a successful update is exactly a
successful `correct` computation followed by the two counter increments. -/
theorem Accuracy.update_eq_some (a : Accuracy) (b : BatchIn) (a2 : Accuracy) :
    a.update b = some a2 ↔
      ∃ c, correctVec a.type b = some c ∧
        a2 = { a with num_correct := a.num_correct + c.count true
                      num_examples := a.num_examples + c.length } := by
  cases h : correctVec a.type b with
  | none => simp [Accuracy.update, h]
  | some c => simp [Accuracy.update, h, eq_comm]

/-- A successful update changes only the two counters. -/
theorem Accuracy.update_frame (a : Accuracy) (b : BatchIn) (a2 : Accuracy)
    (h : a.update b = some a2) :
    a2.type = a.type ∧ a2.is_multilabel = a.is_multilabel ∧
      a2.best_accuracy = a.best_accuracy ∧
      a2.external_best_acc = a.external_best_acc := by
  obtain ⟨c, -, rfl⟩ := (Accuracy.update_eq_some a b a2).mp h
  exact ⟨rfl, rfl, rfl, rfl⟩

/-- Running a sequence of updates accumulates exactly the per-batch
`(correct, total)` pairs onto the two counters, and touches nothing else. -/
theorem applyUpdates_counts (bs : List BatchIn) (a a2 : Accuracy)
    (h : applyUpdates a bs = some a2) :
    ∃ c n, totalCounts a.type bs = some (c, n) ∧
      a2.num_correct = a.num_correct + c ∧
      a2.num_examples = a.num_examples + n ∧
      a2.type = a.type ∧ a2.is_multilabel = a.is_multilabel ∧
      a2.best_accuracy = a.best_accuracy := by
  induction bs generalizing a with
  | nil =>
    simp only [applyUpdates, Option.some.injEq] at h
    subst h
    exact ⟨0, 0, rfl, by simp, by simp, rfl, rfl, rfl⟩
  | cons b bs ih =>
    simp only [applyUpdates] at h
    cases hu : a.update b with
    | none => rw [hu] at h; exact absurd h (by simp)
    | some a1 =>
      rw [hu] at h
      obtain ⟨cv, hcv, ha1⟩ := (Accuracy.update_eq_some a b a1).mp hu
      obtain ⟨c, n, hc, h1, h2, h3, h4, h5⟩ := ih a1 h
      have hty : a1.type = a.type := by rw [ha1]
      refine ⟨cv.count true + c, cv.length + n, ?_, ?_, ?_, ?_, ?_, ?_⟩
      · simp only [totalCounts, batchCounts, hcv, Option.map_some']
        rw [hty] at hc
        rw [hc]
      · rw [h1, ha1]; simp [Nat.add_assoc]
      · rw [h2, ha1]; simp [Nat.add_assoc]
      · rw [h3, ha1]
      · rw [h4, ha1]
      · rw [h5, ha1]

/-- A concrete binary-mode batch used by witnesses: predictions `[1, 0]`
against targets `[1, 1]`, one correct out of two. -/
def sampleBatch : BatchIn :=
  { y_pred := [[1, 0]], target := [[1, 1]], idx := [] }

/-- The state of `Accuracy.init false (some "binary")` after one `update`
on `sampleBatch`. -/
def sampleBinary1 : Accuracy :=
  { is_multilabel := false, type := some "binary", num_correct := 1,
    num_examples := 2, best_accuracy := -1, external_best_acc := -1 }

/-- `sampleBinary1` after a successful `compute()` (best accuracy 1/2). -/
def sampleBinary2 : Accuracy :=
  { sampleBinary1 with best_accuracy := 1 / 2 }

/-- C1: for every `Accuracy` instance and every sequence of `update()` calls
since the last `reset()`, a successful `compute()` returns the accumulated
number of correct predictions divided by the accumulated number of examples
seen (the per-batch correct counts and example counts summed over all
updates). -/
theorem accuracy_compute_accumulated (a : Accuracy) (bs : List BatchIn)
    (a2 : Accuracy) (c n : Nat) (r : ℚ) (a3 : Accuracy)
    (h1 : applyUpdates a.reset bs = some a2)
    (h2 : totalCounts a.type bs = some (c, n))
    (h3 : a2.compute = some (r, a3)) :
    r = (c : ℚ) / (n : ℚ) := by
  obtain ⟨c', n', hc', hcorr, hex, -, -, -⟩ := applyUpdates_counts bs a.reset a2 h1
  have hty : a.reset.type = a.type := rfl
  rw [hty, h2] at hc'
  simp only [Option.some.injEq, Prod.mk.injEq] at hc'
  obtain ⟨rfl, rfl⟩ := hc'
  have hex2 : a2.num_examples = n := by simpa [Accuracy.reset] using hex
  have hcz : a2.num_correct = c := by simpa [Accuracy.reset] using hcorr
  by_cases hn : n = 0
  · rw [Accuracy.compute] at h3
    rw [hex2, hn] at h3
    simp at h3
  · rw [Accuracy.compute] at h3
    rw [hex2, hcz] at h3
    simp only [hn, if_false, Option.some.injEq, Prod.mk.injEq] at h3
    exact h3.1.symm

/-- Witness for C1 at a concrete run: one binary-mode batch with one correct
prediction out of two. -/
theorem accuracy_compute_accumulated_witness :
    (1 : ℚ) / 2 = ((1 : Nat) : ℚ) / ((2 : Nat) : ℚ) :=
  accuracy_compute_accumulated (Accuracy.init false (some "binary"))
    [sampleBatch] sampleBinary1 1 2 ((1 : ℚ) / 2) sampleBinary2
    (by decide) (by decide)
    (by rw [Accuracy.compute]; norm_num [sampleBinary1, sampleBinary2])

/-- C2: for every `Accuracy` instance whose accumulated example counter is
zero, `compute()` raises unconditionally. -/
theorem compute_raises_on_zero_examples (a : Accuracy)
    (h : a.num_examples = 0) : a.compute = none := by
  simp [Accuracy.compute, h]

/-- Witness for C2 on a freshly constructed instance. -/
theorem compute_raises_on_zero_examples_witness :
    (Accuracy.init false none).compute = none :=
  compute_raises_on_zero_examples (Accuracy.init false none) rfl

/-- C3 counterexample: a successful `update()` on an empty binary batch
leaves the example counter at zero, so `compute()` still raises even though
an `update()` call has been made since the last `reset()`. -/
theorem update_without_examples_counterexample :
    (Accuracy.init false (some "binary")).reset.update ⟨[], [], []⟩ ≠ none ∧
    ((Accuracy.init false (some "binary")).reset.update ⟨[], [], []⟩).bind
        Accuracy.compute = none := by
  decide

/-- C3 amended: `compute()` raises if and only if the updates since the last
`reset()` have accumulated zero examples — in particular it raises when no
`update()` has been made, and succeeds after any update sequence whose
total example count is positive. -/
theorem compute_raises_iff_no_examples (a : Accuracy) (bs : List BatchIn)
    (a2 : Accuracy) (c n : Nat)
    (h1 : applyUpdates a.reset bs = some a2)
    (h2 : totalCounts a.type bs = some (c, n)) :
    (a2.compute = none ↔ n = 0) ∧ (bs = [] → a2.compute = none) := by
  obtain ⟨c', n', hc', hcorr, hex, -, -, -⟩ := applyUpdates_counts bs a.reset a2 h1
  have hty : a.reset.type = a.type := rfl
  rw [hty, h2] at hc'
  simp only [Option.some.injEq, Prod.mk.injEq] at hc'
  obtain ⟨rfl, rfl⟩ := hc'
  have hex2 : a2.num_examples = n := by simpa [Accuracy.reset] using hex
  have hiff : a2.compute = none ↔ n = 0 := by
    constructor
    · intro hnone
      by_contra hn
      rw [Accuracy.compute, hex2] at hnone
      simp [hn] at hnone
    · intro hn
      rw [Accuracy.compute, hex2]
      simp [hn]
  refine ⟨hiff, fun hbs => ?_⟩
  subst hbs
  simp only [totalCounts, Option.some.injEq, Prod.mk.injEq] at h2
  exact hiff.mpr h2.2.symm

/-- Witness for C3 (amended) at a concrete run: after one nonempty binary
batch, `compute()` succeeds (both sides of the equivalence are false). -/
theorem compute_raises_iff_no_examples_witness :
    (sampleBinary1.compute = none ↔ (2 : Nat) = 0) ∧
    ([sampleBatch] = [] → sampleBinary1.compute = none) :=
  compute_raises_iff_no_examples (Accuracy.init false (some "binary"))
    [sampleBatch] sampleBinary1 1 2 (by decide) (by decide)

/-- C4: `get_act_function` and `get_act_function_module` return the
activation matching the key for `"relu"`, `"sigm"`, `"tanh"`, `"leaky"`,
and raise (`NotImplementedError`, here `none`) for every other string. -/
theorem act_function_lookup (descr : String)
    (h1 : descr ≠ "relu") (h2 : descr ≠ "sigm") (h3 : descr ≠ "tanh")
    (h4 : descr ≠ "leaky") :
    get_act_function "relu" = some ActFn.relu ∧
    get_act_function "sigm" = some ActFn.sigm ∧
    get_act_function "tanh" = some ActFn.tanh ∧
    get_act_function "leaky" = some ActFn.leaky ∧
    get_act_function_module "relu" = some ActFn.relu ∧
    get_act_function_module "sigm" = some ActFn.sigm ∧
    get_act_function_module "tanh" = some ActFn.tanh ∧
    get_act_function_module "leaky" = some ActFn.leaky ∧
    get_act_function descr = none ∧ get_act_function_module descr = none := by
  refine ⟨by decide, by decide, by decide, by decide, by decide, by decide,
    by decide, by decide, ?_, ?_⟩ <;>
    simp [get_act_function, get_act_function_module, h1, h2, h3, h4]

/-- Witness for C4 at the unknown key `"softmax"`. -/
theorem act_function_lookup_witness :
    get_act_function "relu" = some ActFn.relu ∧
    get_act_function "sigm" = some ActFn.sigm ∧
    get_act_function "tanh" = some ActFn.tanh ∧
    get_act_function "leaky" = some ActFn.leaky ∧
    get_act_function_module "relu" = some ActFn.relu ∧
    get_act_function_module "sigm" = some ActFn.sigm ∧
    get_act_function_module "tanh" = some ActFn.tanh ∧
    get_act_function_module "leaky" = some ActFn.leaky ∧
    get_act_function "softmax" = none ∧
    get_act_function_module "softmax" = none :=
  act_function_lookup "softmax" (by decide) (by decide) (by decide) (by decide)

/-- C5: `best_accuracy` is a running maximum modified only by a successful
`compute()` (which sets it to the maximum of its previous value and the
returned accuracy); `reset()` and `update()` leave `best_accuracy` and the
configured mode fields unchanged, and `get_best()` returns
`best_accuracy`. -/
theorem best_accuracy_running_max (a b : Accuracy) (bi : BatchIn) (r : ℚ)
    (a3 b2 : Accuracy)
    (hc : a.compute = some (r, a3)) (hu : b.update bi = some b2) :
    a3.best_accuracy = max a.best_accuracy r ∧
    a3.type = a.type ∧ a3.is_multilabel = a.is_multilabel ∧
    a.reset.best_accuracy = a.best_accuracy ∧
    a.reset.type = a.type ∧ a.reset.is_multilabel = a.is_multilabel ∧
    b2.best_accuracy = b.best_accuracy ∧
    b2.type = b.type ∧ b2.is_multilabel = b.is_multilabel ∧
    a.get_best = a.best_accuracy := by
  obtain ⟨hbt, hbm, hbb, -⟩ := Accuracy.update_frame b bi b2 hu
  rw [Accuracy.compute] at hc
  by_cases hn : a.num_examples = 0
  · simp [hn] at hc
  · simp only [hn, if_false, Option.some.injEq, Prod.mk.injEq] at hc
    obtain ⟨hr, ha3⟩ := hc
    by_cases hlt : a.best_accuracy < (a.num_correct : ℚ) / (a.num_examples : ℚ)
    · rw [if_pos hlt] at ha3
      subst ha3
      refine ⟨?_, rfl, rfl, rfl, rfl, rfl, hbb, hbt, hbm, rfl⟩
      rw [← hr]
      exact (max_eq_right (le_of_lt hlt)).symm
    · rw [if_neg hlt] at ha3
      subst ha3
      refine ⟨?_, rfl, rfl, rfl, rfl, rfl, hbb, hbt, hbm, rfl⟩
      rw [← hr]
      exact (max_eq_left (not_lt.mp hlt)).symm

/-- The state of `sampleBinary1` after a second `update` on `sampleBatch`. -/
def sampleBinary3 : Accuracy :=
  { sampleBinary1 with num_correct := 2, num_examples := 4 }

/-- Witness for C5: `sampleBinary1.compute` raises the best accuracy from
`-1` to `1/2`, an `update` on `sampleBatch` leaves it alone. -/
theorem best_accuracy_running_max_witness :
    sampleBinary2.best_accuracy = max sampleBinary1.best_accuracy ((1 : ℚ) / 2) ∧
    sampleBinary2.type = sampleBinary1.type ∧
    sampleBinary2.is_multilabel = sampleBinary1.is_multilabel ∧
    sampleBinary1.reset.best_accuracy = sampleBinary1.best_accuracy ∧
    sampleBinary1.reset.type = sampleBinary1.type ∧
    sampleBinary1.reset.is_multilabel = sampleBinary1.is_multilabel ∧
    sampleBinary3.best_accuracy = sampleBinary1.best_accuracy ∧
    sampleBinary3.type = sampleBinary1.type ∧
    sampleBinary3.is_multilabel = sampleBinary1.is_multilabel ∧
    sampleBinary1.get_best = sampleBinary1.best_accuracy :=
  best_accuracy_running_max sampleBinary1 sampleBinary1 sampleBatch
    ((1 : ℚ) / 2) sampleBinary2 sampleBinary3
    (by rw [Accuracy.compute]; norm_num [sampleBinary1, sampleBinary2])
    (by decide)

/-- C6 counterexample: for the requested count `-1` with one available GPU,
neither `if` of `prepare_device` fires, so the clamped count is `-1` —
nonzero — yet the returned device is `cpu`, not `cuda:{gpu_id}` as the
claim's "CPU when the clamped count is zero and cuda otherwise" states. -/
theorem prepare_device_counterexample :
    clampGpuCount (-1) 1 ≠ 0 ∧
    prepare_device (-1) (some 0) 1 = "cpu" ∧
    prepare_device (-1) (some 0) 1 ≠ "cuda:" ++ formatGpuId (some 0) := by
  refine ⟨by decide, rfl, ?_⟩
  intro h
  exact absurd (congrArg (fun s => s.take 3) h) (by decide)

/-- C6 amended: `prepare_device` sets the effective count to 0 when a
positive count is requested but no GPU is available, caps it at `n_gpu`
when the request exceeds it, keeps a positive request within bounds
unchanged, and returns the CPU device when the clamped count is zero or
negative and the device `cuda:{gpu_id}` otherwise. -/
theorem prepare_device_clamps (n_gpu_use : Int) (n_gpu : Nat)
    (gpu_id : Option Int) :
    (0 < n_gpu_use → n_gpu = 0 → clampGpuCount n_gpu_use n_gpu = 0) ∧
    ((n_gpu : Int) < n_gpu_use → clampGpuCount n_gpu_use n_gpu = (n_gpu : Int)) ∧
    (0 < n_gpu_use → n_gpu_use ≤ (n_gpu : Int) →
      clampGpuCount n_gpu_use n_gpu = n_gpu_use) ∧
    (clampGpuCount n_gpu_use n_gpu ≤ 0 →
      prepare_device n_gpu_use gpu_id n_gpu = "cpu") ∧
    (0 < clampGpuCount n_gpu_use n_gpu →
      prepare_device n_gpu_use gpu_id n_gpu = "cuda:" ++ formatGpuId gpu_id) := by
  refine ⟨?_, ?_, ?_, ?_, ?_⟩
  · intro h1 h2
    simp only [clampGpuCount, h1, h2]
    norm_num
  · intro h
    simp only [clampGpuCount]
    split_ifs <;> omega
  · intro h1 h2
    simp only [clampGpuCount]
    split_ifs <;> omega
  · intro h
    have h2 : ¬ (0 : Int) < clampGpuCount n_gpu_use n_gpu := not_lt.mpr h
    simp only [prepare_device, h2, if_false]
  · intro h
    simp only [prepare_device, h, if_true]

/-- Witness for C6 (amended): two GPUs requested, one available, id 0. -/
theorem prepare_device_clamps_witness :
    prepare_device 2 (some 0) 1 = "cuda:" ++ formatGpuId (some 0) :=
  (prepare_device_clamps 2 1 (some 0)).2.2.2.2 (by decide)

/-- C7: saving an array and loading it back on the same filename
round-trips; the save writes exactly the path `filename + ".npy.gz"`
(every other path of the store is untouched) and the load reads exactly
that path. -/
theorem npy_gz_save_load (fs : String → Option (List Int)) (array : List Int)
    (s : String) :
    load_to_npy_gz (save_to_npy_gz fs array s) s = some array ∧
    save_to_npy_gz fs array s (s ++ npyGzSuffix) = some array ∧
    (∀ p, p ≠ s ++ npyGzSuffix → save_to_npy_gz fs array s p = fs p) ∧
    load_to_npy_gz fs s = fs (s ++ npyGzSuffix) := by
  refine ⟨?_, ?_, ?_, rfl⟩
  · simp [load_to_npy_gz, save_to_npy_gz]
  · simp [save_to_npy_gz]
  · intro p hp
    simp [save_to_npy_gz, hp]

/-- Witness for C7 on an empty store, the array `[1, 2]` and the filename
`"arr"`: the frame condition at the untouched path `"other"`. -/
theorem npy_gz_save_load_witness :
    save_to_npy_gz (fun _ => none) [1, 2] "arr" "other" = none :=
  (npy_gz_save_load (fun _ => none) [1, 2] "arr").2.2.1 "other" (by decide)

/-- C9: for every `Accuracy` whose configured type is outside the four
recognised strings — including the default `type=None` — every `update()`
call raises (`correct` is never assigned, so the accumulation line raises
`UnboundLocalError`), and consequently no counter is ever accumulated in
that configuration: every successful `reset`/`update` run from a fresh
instance leaves both counters at zero. -/
theorem unknown_type_update_raises (t : Option String)
    (h1 : t ≠ some "binary") (h2 : t ≠ some "multiclass")
    (h3 : t ≠ some "multilabel") (h4 : t ≠ some "semisupervised") :
    (∀ a : Accuracy, a.type = t → ∀ b, a.update b = none) ∧
    (∀ (m : Bool) (ops : List MetricOp) (a2 : Accuracy),
      runOps (Accuracy.init m t) ops = some a2 →
        a2.num_correct = 0 ∧ a2.num_examples = 0) := by
  have hcv : ∀ b, correctVec t b = none := by
    intro b
    simp [correctVec, h1, h2, h3, h4]
  have hup : ∀ a : Accuracy, a.type = t → ∀ b, a.update b = none := by
    intro a ha b
    simp [Accuracy.update, ha, hcv]
  refine ⟨hup, ?_⟩
  have main : ∀ (ops : List MetricOp) (a a2 : Accuracy), a.type = t →
      a.num_correct = 0 → a.num_examples = 0 →
      runOps a ops = some a2 → a2.num_correct = 0 ∧ a2.num_examples = 0 := by
    intro ops
    induction ops with
    | nil =>
      intro a a2 _ hc hn h
      simp only [runOps, Option.some.injEq] at h
      subst h
      exact ⟨hc, hn⟩
    | cons op ops ih =>
      intro a a2 hty hc hn h
      cases op with
      | resetOp => exact ih a.reset a2 hty rfl rfl h
      | updateOp b =>
        simp only [runOps] at h
        rw [hup a hty b] at h
        simp at h
  intro m ops a2 h
  exact main ops (Accuracy.init m t) a2 rfl rfl rfl h

/-- Witness for C9 at the default configuration `type=None`: a direct
`update` raises, and a `reset`-then-`update` run never reaches a state. -/
theorem unknown_type_update_raises_witness :
    (Accuracy.init false none).update sampleBatch = none :=
  (unknown_type_update_raises none (by decide) (by decide) (by decide)
    (by decide)).1 (Accuracy.init false none) rfl sampleBatch

/-- C8: along every sequence of `reset()` and successful `update()` calls
from a fresh instance, the invariant `num_correct ≤ num_examples` holds
(both counters are naturals, so `0 ≤ num_correct` is implicit in the
types), and consequently every value returned by a successful `compute()`
lies in `[0, 1]`. -/
theorem accuracy_counters_invariant (m : Bool) (t : Option String)
    (ops : List MetricOp) (a2 : Accuracy)
    (h : runOps (Accuracy.init m t) ops = some a2) :
    a2.num_correct ≤ a2.num_examples ∧
    ∀ r a3, a2.compute = some (r, a3) → 0 ≤ r ∧ r ≤ 1 := by
  have main : ∀ (ops : List MetricOp) (a a2 : Accuracy),
      a.num_correct ≤ a.num_examples → runOps a ops = some a2 →
      a2.num_correct ≤ a2.num_examples := by
    intro ops
    induction ops with
    | nil =>
      intro a a2 hinv h
      simp only [runOps, Option.some.injEq] at h
      subst h
      exact hinv
    | cons op ops ih =>
      intro a a2 hinv h
      cases op with
      | resetOp => exact ih a.reset a2 (by simp [Accuracy.reset]) h
      | updateOp b =>
        simp only [runOps] at h
        cases hu : a.update b with
        | none => rw [hu] at h; exact absurd h (by simp)
        | some a1 =>
          rw [hu] at h
          obtain ⟨cv, -, rfl⟩ := (Accuracy.update_eq_some a b a1).mp hu
          exact ih _ a2 (Nat.add_le_add hinv (List.count_le_length true cv)) h
  have hinv := main ops (Accuracy.init m t) a2 (le_refl 0) h
  refine ⟨hinv, fun r a3 hc => ?_⟩
  rw [Accuracy.compute] at hc
  by_cases hn : a2.num_examples = 0
  · simp [hn] at hc
  · simp only [hn, if_false, Option.some.injEq, Prod.mk.injEq] at hc
    obtain ⟨hr, -⟩ := hc
    subst hr
    have hpos : (0 : ℚ) < (a2.num_examples : ℚ) := by
      exact_mod_cast Nat.pos_of_ne_zero hn
    constructor
    · exact div_nonneg (Nat.cast_nonneg _) (Nat.cast_nonneg _)
    · rw [div_le_one hpos]
      exact_mod_cast hinv

/-- Witness for C8: one binary update from a fresh instance reaches
`sampleBinary1`, whose counters satisfy the invariant. -/
theorem accuracy_counters_invariant_witness :
    sampleBinary1.num_correct ≤ sampleBinary1.num_examples :=
  (accuracy_counters_invariant false (some "binary")
    [MetricOp.updateOp sampleBatch] sampleBinary1 (by decide)).1

/-- Length of the chunk list: one chunk per step of `range(0, len, 10)`. -/
theorem length_get_chunk (d : List (String × String)) :
    (get_chunk d 10).length = (d.length + 9) / 10 := by
  simp [get_chunk]

/-- `get_chunk` of the empty dict yields no chunks (`range(0, 0, 10)` is
empty). -/
theorem get_chunk_nil : get_chunk [] 10 = [] := rfl

/-- Recursion lemma for `get_chunk` at size 10: a nonempty dict yields its
first 10 entries as the head chunk, followed by the chunks of the rest. -/
theorem get_chunk_cons (d : List (String × String)) (hd : d ≠ []) :
    get_chunk d 10 = d.take 10 :: get_chunk (d.drop 10) 10 := by
  have hn : 1 ≤ d.length := List.length_pos.mpr hd
  have hk : (d.length + 10 - 1) / 10 = ((d.drop 10).length + 10 - 1) / 10 + 1 := by
    simp only [List.length_drop]
    omega
  simp only [get_chunk, hk, List.range_succ_eq_map, List.map_cons, List.map_map]
  congr 1
  simp only [List.map_inj_left, Function.comp_apply, List.mem_range,
    List.drop_drop]
  intro a ha
  have h10 : 10 * (a + 1) = 10 + 10 * a := by ring
  rw [h10]

/-- Concatenating the chunks of `get_chunk` restores the dict's entries
(fuelled induction on the length). -/
theorem get_chunk_flatten_aux :
    ∀ (f : Nat) (d : List (String × String)), d.length ≤ f →
      (get_chunk d 10).flatten = d := by
  intro f
  induction f with
  | zero =>
    intro d hd
    have hnil : d = [] := List.length_eq_zero.mp (Nat.le_zero.mp hd)
    subst hnil
    rfl
  | succ f ih =>
    intro d hd
    rcases d with _ | ⟨x, xs⟩
    · rfl
    · rw [get_chunk_cons _ (by simp), List.flatten_cons,
        ih ((x :: xs).drop 10) (by simp [List.length_drop] at hd ⊢; omega)]
      exact List.take_append_drop 10 (x :: xs)

/-- Every chunk produced by `get_chunk` is nonempty and holds at most 10
entries. -/
theorem get_chunk_sizes_aux :
    ∀ (f : Nat) (d : List (String × String)), d.length ≤ f →
      ∀ c ∈ get_chunk d 10, c ≠ [] ∧ c.length ≤ 10 := by
  intro f
  induction f with
  | zero =>
    intro d hd c hc
    have hnil : d = [] := List.length_eq_zero.mp (Nat.le_zero.mp hd)
    subst hnil
    simp [get_chunk_nil] at hc
  | succ f ih =>
    intro d hd c hc
    rcases d with _ | ⟨x, xs⟩
    · simp [get_chunk_nil] at hc
    · rw [get_chunk_cons _ (by simp)] at hc
      rcases List.mem_cons.mp hc with rfl | hc2
      · refine ⟨by simp, ?_⟩
        simp [List.length_take]
      · exact ih _ (by simp at hd ⊢; omega) c hc2

/-- Every chunk except possibly the last holds exactly 10 entries. -/
theorem get_chunk_full_aux :
    ∀ (f : Nat) (d : List (String × String)), d.length ≤ f →
      ∀ i, i + 1 < (get_chunk d 10).length →
        ((get_chunk d 10).getD i []).length = 10 := by
  intro f
  induction f with
  | zero =>
    intro d hd i hi
    have hnil : d = [] := List.length_eq_zero.mp (Nat.le_zero.mp hd)
    subst hnil
    simp [get_chunk_nil] at hi
  | succ f ih =>
    intro d hd i hi
    rcases d with _ | ⟨x, xs⟩
    · simp [get_chunk_nil] at hi
    · rw [get_chunk_cons _ (by simp)] at hi ⊢
      cases i with
      | zero =>
        simp only [List.length_cons] at hi
        have hrest : 1 ≤ (get_chunk ((x :: xs).drop 10) 10).length := by omega
        rw [length_get_chunk] at hrest
        simp only [List.length_drop, List.length_cons] at hrest
        simp only [List.getD_cons_zero]
        simp only [List.length_take, List.length_cons]
        omega
      | succ j =>
        simp only [List.getD_cons_succ]
        apply ih _ (by simp at hd ⊢; omega) j
        simp only [List.length_cons] at hi
        omega

/-- C10: `dict_to_md` ignores `vis_size` entirely and partitions the
dict's entries into consecutive chunks of exactly 10 (the last chunk
possibly smaller, every chunk nonempty, their concatenation restoring the
entries in order), producing one markdown table — header row, separator
row, single value row — per chunk. -/
theorem dict_to_md_tables (d : List (String × String)) (v : Nat) :
    dict_to_md d v = dict_to_md d 10 ∧
    (get_chunk d 10).flatten = d ∧
    (∀ c ∈ get_chunk d 10, c ≠ [] ∧ c.length ≤ 10) ∧
    (∀ i, i + 1 < (get_chunk d 10).length →
      ((get_chunk d 10).getD i []).length = 10) ∧
    dict_to_md d v = (get_chunk d 10).map mdTable :=
  ⟨rfl, get_chunk_flatten_aux d.length d (le_refl _),
    get_chunk_sizes_aux d.length d (le_refl _),
    get_chunk_full_aux d.length d (le_refl _), rfl⟩

/-- A 12-entry dict used to witness C10 (two chunks: 10 and 2 entries). -/
def sampleDict : List (String × String) :=
  [("k1", "v1"), ("k2", "v2"), ("k3", "v3"), ("k4", "v4"), ("k5", "v5"),
   ("k6", "v6"), ("k7", "v7"), ("k8", "v8"), ("k9", "v9"), ("k10", "v10"),
   ("k11", "v11"), ("k12", "v12")]

/-- Witness for C10 on `sampleDict` with `vis_size = 3`: its first chunk
(which is not the last) holds exactly 10 entries. -/
theorem dict_to_md_tables_witness :
    ((get_chunk sampleDict 10).getD 0 []).length = 10 :=
  (dict_to_md_tables sampleDict 3).2.2.2.1 0 (by decide)
